import Mathlib

/-!
Verification of the ASPEP/MCP motor-control protocol client
(`src/hardware/uart_manager.py`) and the fault monitor
(`src/services/fault_service.py`, fault table in `src/core/config.py`).

The Python code is shallowly embedded: machine integers become `Nat`/`Int`
with explicit masks, serial reads become explicit lists of read results
(a missing entry or `none` models a read timeout), and the Python floats
used for the ramp/percentage arithmetic are modelled as the exact rational
values of IEEE-754 binary64 numbers, with every arithmetic step followed
by explicit round-to-nearest-even rounding (`roundB64`) and `int(...)`
truncation-toward-zero made explicit (`pyInt`).
-/

set_option maxRecDepth 10000

/-! ## CRC4 lookup tables (uart_manager.py, CRC4_Lookup8 / CRC4_Lookup4) -/

def CRC4_Lookup8 : List Nat := [
  0x00,0x02,0x04,0x06,0x08,0x0a,0x0c,0x0e,0x07,0x05,0x03,0x01,0x0f,0x0d,0x0b,0x09,
  0x07,0x05,0x03,0x01,0x0f,0x0d,0x0b,0x09,0x00,0x02,0x04,0x06,0x08,0x0a,0x0c,0x0e,
  0x0e,0x0c,0x0a,0x08,0x06,0x04,0x02,0x00,0x09,0x0b,0x0d,0x0f,0x01,0x03,0x05,0x07,
  0x09,0x0b,0x0d,0x0f,0x01,0x03,0x05,0x07,0x0e,0x0c,0x0a,0x08,0x06,0x04,0x02,0x00,
  0x0b,0x09,0x0f,0x0d,0x03,0x01,0x07,0x05,0x0c,0x0e,0x08,0x0a,0x04,0x06,0x00,0x02,
  0x0c,0x0e,0x08,0x0a,0x04,0x06,0x00,0x02,0x0b,0x09,0x0f,0x0d,0x03,0x01,0x07,0x05,
  0x05,0x07,0x01,0x03,0x0d,0x0f,0x09,0x0b,0x02,0x00,0x06,0x04,0x0a,0x08,0x0e,0x0c,
  0x02,0x00,0x06,0x04,0x0a,0x08,0x0e,0x0c,0x05,0x07,0x01,0x03,0x0d,0x0f,0x09,0x0b,
  0x01,0x03,0x05,0x07,0x09,0x0b,0x0d,0x0f,0x06,0x04,0x02,0x00,0x0e,0x0c,0x0a,0x08,
  0x06,0x04,0x02,0x00,0x0e,0x0c,0x0a,0x08,0x01,0x03,0x05,0x07,0x09,0x0b,0x0d,0x0f,
  0x0f,0x0d,0x0b,0x09,0x07,0x05,0x03,0x01,0x08,0x0a,0x0c,0x0e,0x00,0x02,0x04,0x06,
  0x08,0x0a,0x0c,0x0e,0x00,0x02,0x04,0x06,0x0f,0x0d,0x0b,0x09,0x07,0x05,0x03,0x01,
  0x0a,0x08,0x0e,0x0c,0x02,0x00,0x06,0x04,0x0d,0x0f,0x09,0x0b,0x05,0x07,0x01,0x03,
  0x0d,0x0f,0x09,0x0b,0x05,0x07,0x01,0x03,0x0a,0x08,0x0e,0x0c,0x02,0x00,0x06,0x04,
  0x04,0x06,0x00,0x02,0x0c,0x0e,0x08,0x0a,0x03,0x01,0x07,0x05,0x0b,0x09,0x0f,0x0d,
  0x03,0x01,0x07,0x05,0x0b,0x09,0x0f,0x0d,0x04,0x06,0x00,0x02,0x0c,0x0e,0x08,0x0a]

def CRC4_Lookup4 : List Nat := [
  0x00,0x07,0x0e,0x09,0x0b,0x0c,0x05,0x02,
  0x01,0x06,0x0f,0x08,0x0a,0x0d,0x04,0x03]

/-- One table step `crc = CRC4_Lookup8[crc ^ byte]` of the byte-wise CRC4. -/
def l8 (i : Nat) : Nat := CRC4_Lookup8.getD i 0

/-- The CRC state after the three byte-wise lookups over bytes 0..2,
starting from `crc = 0` (shared prefix of `compute_header_crc` and
`check_header_crc` in uart_manager.py). -/
def crcState3 (b0 b1 b2 : Nat) : Nat :=
  l8 (l8 (l8 (0 ^^^ b0) ^^^ b1) ^^^ b2)

/-- The final CRC state after all four byte-wise lookups of
`check_header_crc`. -/
def crcByteChain (b0 b1 b2 b3 : Nat) : Nat :=
  l8 (crcState3 b0 b1 b2 ^^^ b3)

/-- `compute_header_crc(lower28)` (uart_manager.py lines 151-159): three
byte-wise lookups over the low 24 bits of `lower28 & 0x0FFFFFFF` followed
by a nibble-wise lookup over bits 24..27, result masked to 4 bits.  The
Python assigns `crc` sequentially; the nesting here is the same dataflow. -/
def compute_header_crc (lower28 : Nat) : Nat :=
  CRC4_Lookup4.getD
    (crcState3 ((lower28 &&& 0x0FFFFFFF) &&& 0xFF)
               (((lower28 &&& 0x0FFFFFFF) >>> 8) &&& 0xFF)
               (((lower28 &&& 0x0FFFFFFF) >>> 16) &&& 0xFF)
       ^^^ (((lower28 &&& 0x0FFFFFFF) >>> 24) &&& 0x0F)) 0 &&& 0xF

/-- `check_header_crc(word32)` (uart_manager.py lines 161-168): four
byte-wise lookups over the four little-endian bytes of the 32-bit word;
the header is valid iff the final state is zero. -/
def check_header_crc (word32 : Nat) : Bool :=
  crcByteChain (word32 &&& 0xFF) ((word32 >>> 8) &&& 0xFF)
      ((word32 >>> 16) &&& 0xFF) ((word32 >>> 24) &&& 0xFF) == 0

/-! ## ASPEP packet-type nibbles (uart_manager.py lines 34-40) -/

def TYPE_SILENT : Nat := 0x1
def TYPE_BEACON : Nat := 0x5
def TYPE_PING : Nat := 0x6
def TYPE_ERROR : Nat := 0x7
def TYPE_DATA : Nat := 0x9
def TYPE_ACK : Nat := 0xA
def TYPE_NACK : Nat := 0xF

/-- `int.from_bytes(bytes, 'little')`. -/
def leWord : List Nat → Nat
  | [] => 0
  | b :: rest => b + 256 * leWord rest

/-- `word.to_bytes(4, 'little')` for a 32-bit word. -/
def toBytesLE4 (w : Nat) : List Nat :=
  [w &&& 0xFF, (w >>> 8) &&& 0xFF, (w >>> 16) &&& 0xFF, (w >>> 24) &&& 0xFF]

/-- `build_data_header(length)` (uart_manager.py lines 290-295); the
`raise ValueError("Payload too long")` is modelled as `none`. -/
def build_data_header (length : Nat) : Option (List Nat) :=
  if length > 0x1FFF then none
  else
    let l28 := (length <<< 4) ||| TYPE_DATA
    let word := (compute_header_crc l28 <<< 28) ||| l28
    some (toBytesLE4 word)

/-! ## Finite facts about the CRC4 tables, established by exhaustive checking -/

/-- Every entry of the byte-wise table is a 4-bit value. -/
theorem l8_lt_of_lt : ∀ x < 256, l8 x < 16 := by decide

/-- Out-of-range lookups return the default `0`, so the table step always
yields a 4-bit state. -/
theorem l8_lt (x : Nat) : l8 x < 16 := by
  rcases Nat.lt_or_ge x 256 with h | h
  · exact l8_lt_of_lt x h
  · have hlen : CRC4_Lookup8.length ≤ x := by
      have he : CRC4_Lookup8.length = 256 := rfl
      omega
    rw [l8, List.getD_eq_getElem?_getD, List.getElem?_eq_none hlen]
    decide

/-- Every entry of the nibble-wise table is a 4-bit value. -/
theorem l4_lt_of_lt : ∀ x < 16, CRC4_Lookup4.getD x 0 < 16 := by decide

/-- The nibble-wise lookup always yields a 4-bit value. -/
theorem l4_lt (x : Nat) : CRC4_Lookup4.getD x 0 < 16 := by
  rcases Nat.lt_or_ge x 16 with h | h
  · exact l4_lt_of_lt x h
  · have hlen : CRC4_Lookup4.length ≤ x := by
      have he : CRC4_Lookup4.length = 16 := rfl
      omega
    rw [List.getD_eq_getElem?_getD, List.getElem?_eq_none hlen]
    decide

/-- XOR-ing a 4-bit state into a byte whose high nibble is a separate
4-bit value acts independently on the two nibbles. -/
theorem xor_nibble_split : ∀ s < 16, ∀ t < 16, ∀ c < 16,
    s ^^^ (t + 16 * c) = (s ^^^ t) + 16 * c := by decide

/-- The defining property of the nibble-wise table: appending the computed
CRC nibble to the 28-bit prefix drives the byte-wise check to zero. -/
theorem l4_completes : ∀ s < 16, ∀ t < 16,
    l8 ((s ^^^ t) + 16 * CRC4_Lookup4.getD (s ^^^ t) 0) = 0 := by decide

set_option maxRecDepth 10000 in
set_option maxHeartbeats 4000000 in
/-- Flipping any single bit of the incoming byte changes the table step's
output state. -/
theorem l8_bitflip_ne : ∀ x < 256, ∀ k < 8, l8 (x ^^^ 2 ^ k) ≠ l8 x := by decide

set_option maxRecDepth 10000 in
set_option maxHeartbeats 4000000 in
/-- Changing the 4-bit input state (low nibble of the index) changes the
table step's output state. -/
theorem l8_nibble_ne : ∀ x < 256, ∀ d < 16, d ≠ 0 → l8 (x ^^^ d) ≠ l8 x := by decide

/-! ## Bit-arithmetic bridges -/

theorem and_mask_ff (x : Nat) : x &&& 0xFF = x % 256 := by
  have h := Nat.and_pow_two_sub_one_eq_mod x 8
  norm_num at h
  exact h

theorem and_mask_f (x : Nat) : x &&& 0xF = x % 16 := by
  have h := Nat.and_pow_two_sub_one_eq_mod x 4
  norm_num at h
  exact h

theorem and_mask_28 (x : Nat) : x &&& 0x0FFFFFFF = x % 2 ^ 28 := by
  have h := Nat.and_pow_two_sub_one_eq_mod x 28
  norm_num at h ⊢
  exact h

theorem byte_lt_256 (x : Nat) : x &&& 0xFF < 256 :=
  Nat.lt_succ_of_le Nat.and_le_right

theorem shiftRight_xor_distrib (x y k : Nat) :
    (x ^^^ y) >>> k = (x >>> k) ^^^ (y >>> k) := by
  apply Nat.eq_of_testBit_eq
  intro j
  simp [Nat.testBit_shiftRight, Nat.testBit_xor]

/-- Placing a 4-bit value above a 28-bit value by shift-or is plain
addition. -/
theorem or_high_nibble (v c : Nat) (hv : v < 2 ^ 28) :
    v ||| (c <<< 28) = 2 ^ 28 * c + v := by
  rw [Nat.shiftLeft_eq, Nat.mul_comm c (2 ^ 28), Nat.or_comm,
    ← Nat.mul_add_lt_is_or hv c]

theorem xor_lt_16 {a b : Nat} (ha : a < 16) (hb : b < 16) : a ^^^ b < 16 := by
  have h16 : (16 : Nat) = 2 ^ 4 := by norm_num
  rw [h16] at ha hb ⊢
  exact Nat.xor_lt_two_pow ha hb

theorem xor_lt_256 {a b : Nat} (ha : a < 256) (hb : b < 256) : a ^^^ b < 256 := by
  have h256 : (256 : Nat) = 2 ^ 8 := by norm_num
  rw [h256] at ha hb ⊢
  exact Nat.xor_lt_two_pow ha hb

/-! ## C1: CRC round-trip validity -/

theorem compute_lt_16 (v : Nat) : compute_header_crc v < 16 := by
  unfold compute_header_crc
  rw [and_mask_f]
  exact Nat.mod_lt _ (by norm_num)

/-- The byte chain of `check_header_crc` vanishes on the bytes of a word
whose top nibble is the computed CRC of its low 28 bits. -/
theorem chain_of_valid_word (v : Nat) (hv : v < 2 ^ 28) :
    crcByteChain (v % 256) (v / 2 ^ 8 % 256) (v / 2 ^ 16 % 256)
      (v / 2 ^ 24 + 16 * compute_header_crc v) = 0 := by
  have hvmask : v &&& 0x0FFFFFFF = v := by
    rw [and_mask_28]; exact Nat.mod_eq_of_lt hv
  have ht : v / 2 ^ 24 < 16 := by
    have h28 : (2 : Nat) ^ 28 = 268435456 := by norm_num
    have h24 : (2 : Nat) ^ 24 = 16777216 := by norm_num
    rw [h28] at hv; rw [h24]; omega
  have hcompute : compute_header_crc v =
      CRC4_Lookup4.getD
        (crcState3 (v % 256) (v / 2 ^ 8 % 256) (v / 2 ^ 16 % 256) ^^^ v / 2 ^ 24) 0 := by
    unfold compute_header_crc
    rw [hvmask]
    simp only [Nat.shiftRight_eq_div_pow, and_mask_ff, and_mask_f]
    rw [Nat.mod_eq_of_lt ht, Nat.mod_eq_of_lt (l4_lt _)]
  unfold crcByteChain
  rw [hcompute]
  set s := crcState3 (v % 256) (v / 2 ^ 8 % 256) (v / 2 ^ 16 % 256) with hs
  have hslt : s < 16 := by rw [hs]; unfold crcState3; exact l8_lt _
  rw [xor_nibble_split s hslt (v / 2 ^ 24) ht _ (l4_lt _)]
  exact l4_completes s hslt (v / 2 ^ 24) ht

/-- Validity half of C1: a word assembled as in `build_data_header` /
`build_beacon` passes `check_header_crc`. -/
theorem check_valid_word (v : Nat) (hv : v < 2 ^ 28) :
    check_header_crc (v ||| (compute_header_crc v <<< 28)) = true := by
  rw [or_high_nibble v _ hv]
  unfold check_header_crc
  simp only [Nat.shiftRight_eq_div_pow, and_mask_ff]
  have hc := compute_lt_16 v
  have h28 : (2 : Nat) ^ 28 = 268435456 := by norm_num
  have hv' : v < 268435456 := by rw [← h28]; exact hv
  have e0 : (2 ^ 28 * compute_header_crc v + v) % 256 = v % 256 := by
    rw [h28]; omega
  have e1 : (2 ^ 28 * compute_header_crc v + v) / 2 ^ 8 % 256 = v / 2 ^ 8 % 256 := by
    have h8 : (2 : Nat) ^ 8 = 256 := by norm_num
    rw [h28, h8]; omega
  have e2 : (2 ^ 28 * compute_header_crc v + v) / 2 ^ 16 % 256 = v / 2 ^ 16 % 256 := by
    have h16 : (2 : Nat) ^ 16 = 65536 := by norm_num
    rw [h28, h16]; omega
  have e3 : (2 ^ 28 * compute_header_crc v + v) / 2 ^ 24 % 256 =
      v / 2 ^ 24 + 16 * compute_header_crc v := by
    have h24 : (2 : Nat) ^ 24 = 16777216 := by norm_num
    rw [h28, h24]; omega
  rw [e0, e1, e2, e3, chain_of_valid_word v hv]
  rfl

/-! ## C1: single-bit-flip sensitivity -/

/-- Distinct 4-bit CRC states remain distinct after absorbing the same
byte. -/
theorem step_state_ne {s t : Nat} (b : Nat) (hs : s < 16) (ht : t < 16)
    (hne : s ≠ t) (hb : b < 256) : l8 (t ^^^ b) ≠ l8 (s ^^^ b) := by
  have hd0 : s ^^^ t ≠ 0 := fun h => hne (Nat.xor_eq_zero.mp h)
  have hd : s ^^^ t < 16 := xor_lt_16 hs ht
  have hx : s ^^^ b < 256 := xor_lt_256 (lt_trans hs (by norm_num)) hb
  have key := l8_nibble_ne (s ^^^ b) hx (s ^^^ t) hd hd0
  have heq : (s ^^^ b) ^^^ (s ^^^ t) = t ^^^ b := by
    calc (s ^^^ b) ^^^ (s ^^^ t) = (b ^^^ s) ^^^ (s ^^^ t) := by rw [Nat.xor_comm s b]
    _ = b ^^^ (s ^^^ (s ^^^ t)) := Nat.xor_assoc _ _ _
    _ = b ^^^ ((s ^^^ s) ^^^ t) := by rw [Nat.xor_assoc]
    _ = b ^^^ (0 ^^^ t) := by rw [Nat.xor_self]
    _ = b ^^^ t := by rw [Nat.zero_xor]
    _ = t ^^^ b := Nat.xor_comm _ _
  rw [heq] at key
  exact key

/-- Flipping a bit of byte 3 breaks a vanishing chain. -/
theorem chain_flip3 {b0 b1 b2 b3 k : Nat} (h3 : b3 < 256) (hk : k < 8)
    (hz : crcByteChain b0 b1 b2 b3 = 0) :
    crcByteChain b0 b1 b2 (b3 ^^^ 2 ^ k) ≠ 0 := by
  unfold crcByteChain at hz ⊢
  set s := crcState3 b0 b1 b2 with hs
  have hslt : s < 16 := by rw [hs]; unfold crcState3; exact l8_lt _
  have hx : s ^^^ b3 < 256 := xor_lt_256 (lt_trans hslt (by norm_num)) h3
  have key := l8_bitflip_ne (s ^^^ b3) hx k hk
  rw [← Nat.xor_assoc]
  rw [hz] at key
  exact key

/-- Flipping a bit of byte 2 breaks a vanishing chain. -/
theorem chain_flip2 {b0 b1 b2 b3 k : Nat} (h2 : b2 < 256) (h3 : b3 < 256)
    (hk : k < 8) (hz : crcByteChain b0 b1 b2 b3 = 0) :
    crcByteChain b0 b1 (b2 ^^^ 2 ^ k) b3 ≠ 0 := by
  unfold crcByteChain crcState3 at hz ⊢
  set s2 := l8 (l8 (0 ^^^ b0) ^^^ b1) with hs2
  have hs2lt : s2 < 16 := by rw [hs2]; exact l8_lt _
  have hx : s2 ^^^ b2 < 256 := xor_lt_256 (lt_trans hs2lt (by norm_num)) h2
  have hne := l8_bitflip_ne (s2 ^^^ b2) hx k hk
  rw [← Nat.xor_assoc]
  intro hcontra
  exact step_state_ne b3 (l8_lt (s2 ^^^ b2)) (l8_lt ((s2 ^^^ b2) ^^^ 2 ^ k))
    (fun h => hne h.symm) h3 (hcontra.trans hz.symm)

/-- Flipping a bit of byte 1 breaks a vanishing chain. -/
theorem chain_flip1 {b0 b1 b2 b3 k : Nat} (h1 : b1 < 256) (h2 : b2 < 256)
    (h3 : b3 < 256) (hk : k < 8) (hz : crcByteChain b0 b1 b2 b3 = 0) :
    crcByteChain b0 (b1 ^^^ 2 ^ k) b2 b3 ≠ 0 := by
  unfold crcByteChain crcState3 at hz ⊢
  set s1 := l8 (0 ^^^ b0) with hs1
  have hs1lt : s1 < 16 := by rw [hs1]; exact l8_lt _
  have hx : s1 ^^^ b1 < 256 := xor_lt_256 (lt_trans hs1lt (by norm_num)) h1
  have hne1 := l8_bitflip_ne (s1 ^^^ b1) hx k hk
  rw [← Nat.xor_assoc]
  intro hcontra
  have hne2 := step_state_ne b2 (l8_lt (s1 ^^^ b1)) (l8_lt ((s1 ^^^ b1) ^^^ 2 ^ k))
    (fun h => hne1 h.symm) h2
  exact step_state_ne b3 (l8_lt (l8 (s1 ^^^ b1) ^^^ b2))
    (l8_lt (l8 ((s1 ^^^ b1) ^^^ 2 ^ k) ^^^ b2)) (fun h => hne2 h.symm) h3
    (hcontra.trans hz.symm)

/-- Flipping a bit of byte 0 breaks a vanishing chain. -/
theorem chain_flip0 {b0 b1 b2 b3 k : Nat} (h0 : b0 < 256) (h1 : b1 < 256)
    (h2 : b2 < 256) (h3 : b3 < 256) (hk : k < 8)
    (hz : crcByteChain b0 b1 b2 b3 = 0) :
    crcByteChain (b0 ^^^ 2 ^ k) b1 b2 b3 ≠ 0 := by
  unfold crcByteChain crcState3 at hz ⊢
  simp only [Nat.zero_xor] at hz ⊢
  have hne0 := l8_bitflip_ne b0 h0 k hk
  intro hcontra
  have hne1 := step_state_ne b1 (l8_lt b0) (l8_lt (b0 ^^^ 2 ^ k))
    (fun h => hne0 h.symm) h1
  have hne2 := step_state_ne b2 (l8_lt (l8 b0 ^^^ b1)) (l8_lt (l8 (b0 ^^^ 2 ^ k) ^^^ b1))
    (fun h => hne1 h.symm) h2
  exact step_state_ne b3 (l8_lt (l8 (l8 b0 ^^^ b1) ^^^ b2))
    (l8_lt (l8 (l8 (b0 ^^^ 2 ^ k) ^^^ b1) ^^^ b2)) (fun h => hne2 h.symm) h3
    (hcontra.trans hz.symm)

/-- Bit-flip half of C1: flipping any single bit of a CRC-completed word
makes `check_header_crc` fail. -/
theorem check_flip_false (v i : Nat) (hv : v < 2 ^ 28) (hi : i < 32) :
    check_header_crc ((v ||| (compute_header_crc v <<< 28)) ^^^ 2 ^ i) = false := by
  have hvalid := check_valid_word v hv
  set w := v ||| (compute_header_crc v <<< 28) with hw
  have hchain : crcByteChain (w &&& 0xFF) ((w >>> 8) &&& 0xFF)
      ((w >>> 16) &&& 0xFF) ((w >>> 24) &&& 0xFF) = 0 := by
    unfold check_header_crc at hvalid
    simpa using hvalid
  unfold check_header_crc
  rw [Nat.and_xor_distrib_right]
  rw [shiftRight_xor_distrib w (2 ^ i) 8, Nat.and_xor_distrib_right]
  rw [shiftRight_xor_distrib w (2 ^ i) 16, Nat.and_xor_distrib_right]
  rw [shiftRight_xor_distrib w (2 ^ i) 24, Nat.and_xor_distrib_right]
  rcases Nat.lt_or_ge i 8 with h8 | h8
  · have hilt : 2 ^ i < 256 := by
      have h := Nat.pow_lt_pow_right (a := 2) (by norm_num) h8
      simpa using h
    have hE0 : 2 ^ i &&& 0xFF = 2 ^ i := by
      rw [and_mask_ff]; exact Nat.mod_eq_of_lt hilt
    have hE1 : (2 ^ i >>> 8) &&& 0xFF = 0 := by
      rw [Nat.shiftRight_eq_div_pow,
        Nat.div_eq_of_lt (lt_of_lt_of_le hilt (by norm_num))]
      rfl
    have hE2 : (2 ^ i >>> 16) &&& 0xFF = 0 := by
      rw [Nat.shiftRight_eq_div_pow,
        Nat.div_eq_of_lt (lt_of_lt_of_le hilt (by norm_num))]
      rfl
    have hE3 : (2 ^ i >>> 24) &&& 0xFF = 0 := by
      rw [Nat.shiftRight_eq_div_pow,
        Nat.div_eq_of_lt (lt_of_lt_of_le hilt (by norm_num))]
      rfl
    rw [hE0, hE1, hE2, hE3, Nat.xor_zero, Nat.xor_zero, Nat.xor_zero]
    have hne := chain_flip0 (byte_lt_256 w) (byte_lt_256 (w >>> 8))
      (byte_lt_256 (w >>> 16)) (byte_lt_256 (w >>> 24)) h8 hchain
    simpa using hne
  · rcases Nat.lt_or_ge i 16 with h16 | h16
    · have hk : i - 8 < 8 := by omega
      have hilt : 2 ^ (i - 8) < 256 := by
        have h := Nat.pow_lt_pow_right (a := 2) (by norm_num) hk
        simpa using h
      have hE0 : 2 ^ i &&& 0xFF = 0 := by
        rw [and_mask_ff]
        have hd : (2 : Nat) ^ 8 ∣ 2 ^ i := pow_dvd_pow 2 h8
        have h := Nat.mod_eq_zero_of_dvd hd
        simpa using h
      have hE1 : (2 ^ i >>> 8) &&& 0xFF = 2 ^ (i - 8) := by
        rw [Nat.shiftRight_eq_div_pow, Nat.pow_div h8 (by norm_num), and_mask_ff]
        exact Nat.mod_eq_of_lt hilt
      have hE2 : (2 ^ i >>> 16) &&& 0xFF = 0 := by
        have hlt : (2 : Nat) ^ i < 2 ^ 16 := Nat.pow_lt_pow_right (a := 2) (by norm_num) h16
        rw [Nat.shiftRight_eq_div_pow, Nat.div_eq_of_lt hlt]
        rfl
      have hE3 : (2 ^ i >>> 24) &&& 0xFF = 0 := by
        have hlt : (2 : Nat) ^ i < 2 ^ 24 :=
          Nat.pow_lt_pow_right (a := 2) (by norm_num) (by omega)
        rw [Nat.shiftRight_eq_div_pow, Nat.div_eq_of_lt hlt]
        rfl
      rw [hE0, hE1, hE2, hE3, Nat.xor_zero, Nat.xor_zero, Nat.xor_zero]
      have hne := chain_flip1 (byte_lt_256 (w >>> 8)) (byte_lt_256 (w >>> 16))
        (byte_lt_256 (w >>> 24)) hk hchain
      simpa using hne
    · rcases Nat.lt_or_ge i 24 with h24 | h24
      · have hk : i - 16 < 8 := by omega
        have hilt : 2 ^ (i - 16) < 256 := by
          have h := Nat.pow_lt_pow_right (a := 2) (by norm_num) hk
          simpa using h
        have hE0 : 2 ^ i &&& 0xFF = 0 := by
          rw [and_mask_ff]
          have hd : (2 : Nat) ^ 8 ∣ 2 ^ i := pow_dvd_pow 2 (by omega)
          have h := Nat.mod_eq_zero_of_dvd hd
          simpa using h
        have hE1 : (2 ^ i >>> 8) &&& 0xFF = 0 := by
          rw [Nat.shiftRight_eq_div_pow, Nat.pow_div (by omega) (by norm_num), and_mask_ff]
          have hd : (2 : Nat) ^ 8 ∣ 2 ^ (i - 8) := pow_dvd_pow 2 (by omega)
          have h := Nat.mod_eq_zero_of_dvd hd
          simpa using h
        have hE2 : (2 ^ i >>> 16) &&& 0xFF = 2 ^ (i - 16) := by
          rw [Nat.shiftRight_eq_div_pow, Nat.pow_div h16 (by norm_num), and_mask_ff]
          exact Nat.mod_eq_of_lt hilt
        have hE3 : (2 ^ i >>> 24) &&& 0xFF = 0 := by
          have hlt : (2 : Nat) ^ i < 2 ^ 24 := Nat.pow_lt_pow_right (a := 2) (by norm_num) h24
          rw [Nat.shiftRight_eq_div_pow, Nat.div_eq_of_lt hlt]
          rfl
        rw [hE0, hE1, hE2, hE3, Nat.xor_zero, Nat.xor_zero, Nat.xor_zero]
        have hne := chain_flip2 (byte_lt_256 (w >>> 16)) (byte_lt_256 (w >>> 24)) hk hchain
        simpa using hne
      · have hk : i - 24 < 8 := by omega
        have hilt : 2 ^ (i - 24) < 256 := by
          have h := Nat.pow_lt_pow_right (a := 2) (by norm_num) hk
          simpa using h
        have hE0 : 2 ^ i &&& 0xFF = 0 := by
          rw [and_mask_ff]
          have hd : (2 : Nat) ^ 8 ∣ 2 ^ i := pow_dvd_pow 2 (by omega)
          have h := Nat.mod_eq_zero_of_dvd hd
          simpa using h
        have hE1 : (2 ^ i >>> 8) &&& 0xFF = 0 := by
          rw [Nat.shiftRight_eq_div_pow, Nat.pow_div (by omega) (by norm_num), and_mask_ff]
          have hd : (2 : Nat) ^ 8 ∣ 2 ^ (i - 8) := pow_dvd_pow 2 (by omega)
          have h := Nat.mod_eq_zero_of_dvd hd
          simpa using h
        have hE2 : (2 ^ i >>> 16) &&& 0xFF = 0 := by
          rw [Nat.shiftRight_eq_div_pow, Nat.pow_div (by omega) (by norm_num), and_mask_ff]
          have hd : (2 : Nat) ^ 8 ∣ 2 ^ (i - 16) := pow_dvd_pow 2 (by omega)
          have h := Nat.mod_eq_zero_of_dvd hd
          simpa using h
        have hE3 : (2 ^ i >>> 24) &&& 0xFF = 2 ^ (i - 24) := by
          rw [Nat.shiftRight_eq_div_pow, Nat.pow_div h24 (by norm_num), and_mask_ff]
          exact Nat.mod_eq_of_lt hilt
        rw [hE0, hE1, hE2, hE3, Nat.xor_zero, Nat.xor_zero, Nat.xor_zero]
        have hne := chain_flip3 (byte_lt_256 (w >>> 24)) hk hchain
        simpa using hne

/-- C1: for every 28-bit value `v`, the 32-bit word formed as `v` with
`compute_header_crc v` in its top 4 bits passes `check_header_crc`, and
flipping any single one of its 32 bits makes `check_header_crc` fail. -/
theorem crc4_roundtrip_bitflip (v i : Nat) (hv : v < 2 ^ 28) (hi : i < 32) :
    check_header_crc (v ||| (compute_header_crc v <<< 28)) = true ∧
    check_header_crc ((v ||| (compute_header_crc v <<< 28)) ^^^ (1 <<< i)) = false := by
  refine ⟨check_valid_word v hv, ?_⟩
  rw [Nat.one_shiftLeft]
  exact check_flip_false v i hv hi

/-- Witness for C1 at the concrete 28-bit value 0x0ABCDEF and bit 13. -/
theorem crc4_roundtrip_bitflip_witness :
    check_header_crc (0x0ABCDEF ||| (compute_header_crc 0x0ABCDEF <<< 28)) = true ∧
    check_header_crc ((0x0ABCDEF ||| (compute_header_crc 0x0ABCDEF <<< 28)) ^^^ (1 <<< 13)) = false :=
  crc4_roundtrip_bitflip 0x0ABCDEF 13 (by norm_num) (by norm_num)

/-! ## C8: DATA header length limit -/

/-- C8: encoding a DATA header fails exactly when the payload length
exceeds 0x1FFF; `build_data_header 0x2000` fails and
`build_data_header 0x1FFF` succeeds with a 4-byte little-endian header. -/
theorem data_header_length_overflow :
    (∀ len : Nat, (build_data_header len = none ↔ 0x1FFF < len)) ∧
    (∀ len bs, build_data_header len = some bs → bs.length = 4) ∧
    build_data_header 0x2000 = none ∧
    (build_data_header 0x1FFF).isSome = true := by
  refine ⟨?_, ?_, by decide, by decide⟩
  · intro len
    by_cases h : 0x1FFF < len <;> simp [build_data_header, h]
  · intro len bs h
    by_cases hlen : 0x1FFF < len
    · simp [build_data_header, hlen] at h
    · simp [build_data_header, hlen] at h
      rw [← h]
      rfl

/-- Witness for C8 at lengths 0 (in range) and its boundary equivalence. -/
theorem data_header_length_overflow_witness :
    (build_data_header 0 = none ↔ 0x1FFF < 0) ∧ ([9, 0, 0, 144] : List Nat).length = 4 :=
  ⟨data_header_length_overflow.1 0,
   data_header_length_overflow.2.1 0 [9, 0, 0, 144] (by decide)⟩

/-! ## IEEE-754 binary64 model of Python float arithmetic -/

/-- The significand-rounding step of IEEE-754 round-to-nearest-even:
round a nonnegative scaled significand to the nearest integer, ties to
the even neighbour. -/
def rne (m : ℚ) : ℤ :=
  if m - ⌊m⌋ < 1/2 then ⌊m⌋
  else if 1/2 < m - ⌊m⌋ then ⌊m⌋ + 1
  else if ⌊m⌋ % 2 = 0 then ⌊m⌋ else ⌊m⌋ + 1

/-- The exact rational value of the IEEE-754 binary64 number (Python
float) nearest to `q`, for the default round-to-nearest-even mode: the
significand is rounded to 53 bits at the scale `2 ^ (Int.log 2 |q| - 52)`.
The exponent is unbounded in the model: overflow to infinity and
underflow to subnormals cannot occur for the magnitudes handled in this
file and are outside the model's scope.  CPython floats are binary64 with
correctly rounded `+ - * /`, correctly rounded int-to-float conversion,
and int/int true division correctly rounding the exact quotient, so each
float the modelled code produces is `roundB64` of the corresponding exact
value. -/
def roundB64 (q : ℚ) : ℚ :=
  if q = 0 then 0
  else if 0 < q then
    (rne (q / 2 ^ (Int.log 2 q - 52)) : ℚ) * 2 ^ (Int.log 2 q - 52)
  else
    -((rne (-q / 2 ^ (Int.log 2 (-q) - 52)) : ℚ) * 2 ^ (Int.log 2 (-q) - 52))

/-- Python `int(q)`: truncation toward zero. -/
def pyInt (q : ℚ) : Int := if 0 ≤ q then ⌊q⌋ else ⌈q⌉

theorem rne_intCast (n : ℤ) : rne (n : ℚ) = n := by
  simp [rne]

theorem rne_of_floor_lt (m : ℚ) (f : ℤ) (hf : ⌊m⌋ = f) (h : m - f < 1/2) :
    rne m = f := by
  unfold rne
  rw [hf, if_pos h]

theorem rne_of_lt_floor (m : ℚ) (f : ℤ) (hf : ⌊m⌋ = f) (h : 1/2 < m - f) :
    rne m = f + 1 := by
  unfold rne
  rw [hf, if_neg (not_lt.mpr (le_of_lt h)), if_pos h]

theorem int_log_eq (q : ℚ) (e : ℤ) (hq : 0 < q)
    (h1 : (2:ℚ) ^ e ≤ q) (h2 : q < (2:ℚ) ^ (e + 1)) : Int.log 2 q = e := by
  have hc : ((2:ℕ):ℚ) = (2:ℚ) := by norm_num
  have hle : e ≤ Int.log 2 q := by
    rw [← Int.zpow_le_iff_le_log one_lt_two hq, hc]
    exact h1
  have hlt : Int.log 2 q < e + 1 := by
    rw [← Int.lt_zpow_iff_log_lt one_lt_two hq, hc]
    exact h2
  omega

theorem div_zpow_eq_mul (q : ℚ) (e : ℤ) :
    q / (2:ℚ) ^ (e - 52) = q * (2:ℚ) ^ (52 - e) := by
  rw [div_eq_mul_inv, ← zpow_neg, neg_sub]

theorem roundB64_pos_eval (q : ℚ) (e m : ℤ) (hq : 0 < q)
    (h1 : (2:ℚ) ^ e ≤ q) (h2 : q < (2:ℚ) ^ (e + 1))
    (hm : rne (q * (2:ℚ) ^ (52 - e)) = m) :
    roundB64 q = (m : ℚ) * (2:ℚ) ^ (e - 52) := by
  unfold roundB64
  rw [if_neg (ne_of_gt hq), if_pos hq, int_log_eq q e hq h1 h2,
    div_zpow_eq_mul, hm]

theorem roundB64_eq_self (q : ℚ) (e n : ℤ) (hq : 0 < q)
    (h1 : (2:ℚ) ^ e ≤ q) (h2 : q < (2:ℚ) ^ (e + 1))
    (hn : q * (2:ℚ) ^ (52 - e) = (n : ℚ)) :
    roundB64 q = q := by
  rw [roundB64_pos_eval q e n hq h1 h2 (by rw [hn, rne_intCast]), ← hn,
    mul_assoc, ← zpow_add₀ (by norm_num : (2:ℚ) ≠ 0),
    show (52 - e) + (e - 52) = 0 by ring, zpow_zero, mul_one]

theorem roundB64_zero : roundB64 0 = 0 := by simp [roundB64]

theorem roundB64_neg_of_pos (q : ℚ) (hq : 0 < q) :
    roundB64 (-q) = -roundB64 q := by
  unfold roundB64
  rw [if_neg (ne_of_lt (neg_lt_zero.mpr hq)),
    if_neg (not_lt.mpr (le_of_lt (neg_lt_zero.mpr hq))), neg_neg,
    if_neg (ne_of_gt hq), if_pos hq]

theorem rne_nonneg (m : ℚ) (h : 0 ≤ m) : 0 ≤ rne m := by
  have hf : 0 ≤ ⌊m⌋ := Int.floor_nonneg.mpr h
  unfold rne
  split_ifs <;> omega

theorem roundB64_nonneg (q : ℚ) (h : 0 ≤ q) : 0 ≤ roundB64 q := by
  rcases eq_or_lt_of_le h with h0 | hpos
  · rw [← h0, roundB64_zero]
  · unfold roundB64
    rw [if_neg (ne_of_gt hpos), if_pos hpos]
    have hm : 0 ≤ rne (q / 2 ^ (Int.log 2 q - 52)) :=
      rne_nonneg _ (div_nonneg (le_of_lt hpos)
        (le_of_lt (zpow_pos (by norm_num) _)))
    exact mul_nonneg (by exact_mod_cast hm)
      (le_of_lt (zpow_pos (by norm_num) _))

theorem rne_eval_down (a : ℚ) (n : ℤ) (d : ℕ) (f : ℤ)
    (ha : a = (n:ℚ)/(d:ℚ)) (hf : n / (d:ℤ) = f)
    (hr : (n:ℚ)/(d:ℚ) - (f:ℚ) < 1/2) : rne a = f := by
  subst ha
  refine rne_of_floor_lt _ f ?_ hr
  rw [Rat.floor_intCast_div_natCast, hf]

theorem rne_eval_up (a : ℚ) (n : ℤ) (d : ℕ) (f : ℤ)
    (ha : a = (n:ℚ)/(d:ℚ)) (hf : n / (d:ℤ) = f)
    (hr : 1/2 < (n:ℚ)/(d:ℚ) - (f:ℚ)) : rne a = f + 1 := by
  subst ha
  refine rne_of_lt_floor _ f ?_ hr
  rw [Rat.floor_intCast_div_natCast, hf]

theorem pyInt_eval_nonneg (a : ℚ) (n : ℤ) (d : ℕ) (f : ℤ)
    (ha : a = (n:ℚ)/(d:ℚ)) (h0 : 0 ≤ a) (hf : n / (d:ℤ) = f) : pyInt a = f := by
  subst ha
  unfold pyInt
  rw [if_pos h0, Rat.floor_intCast_div_natCast, hf]

/-! ## C9: percentage/RPM conversion (uart_manager.py lines 488-498) -/

/-- `percentage_to_rpm` (uart_manager.py lines 488-492):
`int((percentage / 100.0) * self._max_speed_rpm)`.  The int `percentage`
is converted to a double and divided by the exact double 100.0; the int
`self._max_speed_rpm` is converted to a double and multiplied in; each
step rounds to binary64. -/
def percentage_to_rpm (max_speed_rpm : Int) (percentage : Int) : Int :=
  pyInt (roundB64 (roundB64 (roundB64 (percentage : ℚ) / 100)
    * roundB64 (max_speed_rpm : ℚ)))

/-- `rpm_to_percentage` (uart_manager.py lines 494-498):
`int((rpm / self._max_speed_rpm) * 100)`.  Both operands of the division
are Python ints, whose true division rounds the exact quotient once; the
multiplication by the exact double 100 rounds again. -/
def rpm_to_percentage (max_speed_rpm : Int) (rpm : Int) : Int :=
  pyInt (roundB64 (roundB64 ((rpm : ℚ) / (max_speed_rpm : ℚ)) * 100))

/-- Counterexample to C9 as stated: `int()` truncates toward zero, so
pct=-50 with max 3 gives -1 where `floor(pct/100 * maxRpm)` is -2; and
even on nonnegative inputs the binary64 rounding can fall below the exact
floor: pct=29 with max 100 gives 28 where the exact formula gives 29. -/
theorem percentage_rpm_counterexample :
    percentage_to_rpm 3 (-50) = -1 ∧
    ⌊((-50 : Int) : ℚ) / 100 * ((3 : Int) : ℚ)⌋ = -2 ∧
    percentage_to_rpm 100 29 = 28 ∧
    ⌊((29 : Int) : ℚ) / 100 * ((100 : Int) : ℚ)⌋ = 29 := by
  have c50 : roundB64 (50:ℚ) = 50 :=
    roundB64_eq_self 50 5 7036874417766400 (by norm_num) (by norm_num)
      (by norm_num) (by norm_num)
  have chalf : roundB64 ((1:ℚ)/2) = (1:ℚ)/2 :=
    roundB64_eq_self ((1:ℚ)/2) (-1) 4503599627370496 (by norm_num) (by norm_num)
      (by norm_num) (by norm_num)
  have c3v : roundB64 (3:ℚ) = 3 :=
    roundB64_eq_self 3 1 6755399441055744 (by norm_num) (by norm_num)
      (by norm_num) (by norm_num)
  have c32 : roundB64 ((3:ℚ)/2) = (3:ℚ)/2 :=
    roundB64_eq_self ((3:ℚ)/2) 0 6755399441055744 (by norm_num) (by norm_num)
      (by norm_num) (by norm_num)
  have c29 : roundB64 (29:ℚ) = 29 :=
    roundB64_eq_self 29 4 8162774324609024 (by norm_num) (by norm_num)
      (by norm_num) (by norm_num)
  have c100 : roundB64 (100:ℚ) = 100 :=
    roundB64_eq_self 100 6 7036874417766400 (by norm_num) (by norm_num)
      (by norm_num) (by norm_num)
  have cdiv29 : roundB64 ((29:ℚ)/100) = (5224175567749775:ℚ)/18014398509481984 := by
    rw [roundB64_pos_eval ((29:ℚ)/100) (-2) 5224175567749775 (by norm_num)
      (by norm_num) (by norm_num)
      (rne_eval_down _ 522417556774977536 100 5224175567749775 (by norm_num)
        (by decide) (by norm_num))]
    norm_num
  have cmul29 : roundB64 ((522417556774977500:ℚ)/18014398509481984)
      = (8162774324609023:ℚ)/281474976710656 := by
    rw [roundB64_pos_eval _ 4 8162774324609023 (by norm_num) (by norm_num)
      (by norm_num)
      (rne_eval_down _ 522417556774977500 64 8162774324609023 (by norm_num)
        (by decide) (by norm_num))]
    norm_num
  refine ⟨?_, ?_, ?_, ?_⟩
  · show pyInt (roundB64 (roundB64 (roundB64 ((-50 : Int) : ℚ) / 100)
      * roundB64 ((3 : Int) : ℚ))) = -1
    rw [show ((-50 : Int) : ℚ) = -(50:ℚ) by norm_num,
      show ((3 : Int) : ℚ) = (3:ℚ) by norm_num,
      roundB64_neg_of_pos 50 (by norm_num), c50, c3v,
      show -(50:ℚ) / 100 = -((1:ℚ)/2) by norm_num,
      roundB64_neg_of_pos ((1:ℚ)/2) (by norm_num), chalf,
      show -((1:ℚ)/2) * 3 = -((3:ℚ)/2) by norm_num,
      roundB64_neg_of_pos ((3:ℚ)/2) (by norm_num), c32]
    unfold pyInt
    rw [if_neg (by norm_num), show -((3:ℚ)/2) = -(((3:ℤ):ℚ)/((2:ℕ):ℚ)) by norm_num,
      Int.ceil_neg, Rat.floor_intCast_div_natCast]
    decide
  · rw [show ((-50 : Int) : ℚ) / 100 * ((3 : Int) : ℚ)
      = ((-3 : Int) : ℚ) / ((2:ℕ) : ℚ) by push_cast; norm_num,
      Rat.floor_intCast_div_natCast]
    decide
  · show pyInt (roundB64 (roundB64 (roundB64 ((29 : Int) : ℚ) / 100)
      * roundB64 ((100 : Int) : ℚ))) = 28
    rw [show ((29 : Int) : ℚ) = (29:ℚ) by norm_num,
      show ((100 : Int) : ℚ) = (100:ℚ) by norm_num, c29, c100, cdiv29,
      show (5224175567749775:ℚ)/18014398509481984 * 100
        = (522417556774977500:ℚ)/18014398509481984 by norm_num, cmul29]
    exact pyInt_eval_nonneg _ 8162774324609023 281474976710656 28 (by norm_num)
      (by norm_num) (by decide)
  · rw [show ((29 : Int) : ℚ) / 100 * ((100 : Int) : ℚ)
      = ((29 : Int) : ℚ) by push_cast; norm_num,
      show ((29 : Int) : ℚ) = (((29:ℤ)):ℚ)/((1:ℕ):ℚ) by norm_num,
      Rat.floor_intCast_div_natCast]
    decide

/-- C9 amended: for nonnegative percentage and maximum the result is the
floor of the binary64 evaluation of `(pct/100) * maxRpm` (truncation
coincides with floor on nonnegative values; for negative pct the code
truncates toward zero instead, and double rounding can drop the result
below the exact `floor(pct/100 * maxRpm)`); the three concrete examples
hold as stated. -/
theorem percentage_rpm_amended :
    (∀ pct maxS : Int, 0 ≤ pct → 0 ≤ maxS →
        percentage_to_rpm maxS pct
          = ⌊roundB64 (roundB64 (roundB64 (pct : ℚ) / 100)
              * roundB64 (maxS : ℚ))⌋) ∧
    percentage_to_rpm 4800 100 = 4800 ∧
    (∀ m : Int, percentage_to_rpm m 0 = 0) ∧
    rpm_to_percentage 4800 2400 = 50 := by
  have c100 : roundB64 (100:ℚ) = 100 :=
    roundB64_eq_self 100 6 7036874417766400 (by norm_num) (by norm_num)
      (by norm_num) (by norm_num)
  have c1v : roundB64 (1:ℚ) = 1 :=
    roundB64_eq_self 1 0 4503599627370496 (by norm_num) (by norm_num)
      (by norm_num) (by norm_num)
  have c4800 : roundB64 (4800:ℚ) = 4800 :=
    roundB64_eq_self 4800 12 5277655813324800 (by norm_num) (by norm_num)
      (by norm_num) (by norm_num)
  have chalf : roundB64 ((1:ℚ)/2) = (1:ℚ)/2 :=
    roundB64_eq_self ((1:ℚ)/2) (-1) 4503599627370496 (by norm_num) (by norm_num)
      (by norm_num) (by norm_num)
  have c50 : roundB64 (50:ℚ) = 50 :=
    roundB64_eq_self 50 5 7036874417766400 (by norm_num) (by norm_num)
      (by norm_num) (by norm_num)
  refine ⟨?_, ?_, ?_, ?_⟩
  · intro pct maxS hp hm
    have h1 : (0:ℚ) ≤ roundB64 (pct : ℚ) :=
      roundB64_nonneg _ (by exact_mod_cast hp)
    have h2 : (0:ℚ) ≤ roundB64 (roundB64 (pct : ℚ) / 100) :=
      roundB64_nonneg _ (div_nonneg h1 (by norm_num))
    have h3 : (0:ℚ) ≤ roundB64 (maxS : ℚ) :=
      roundB64_nonneg _ (by exact_mod_cast hm)
    have h4 : (0:ℚ) ≤ roundB64 (roundB64 (roundB64 (pct : ℚ) / 100)
        * roundB64 (maxS : ℚ)) :=
      roundB64_nonneg _ (mul_nonneg h2 h3)
    unfold percentage_to_rpm pyInt
    rw [if_pos h4]
  · show pyInt (roundB64 (roundB64 (roundB64 ((100 : Int) : ℚ) / 100)
      * roundB64 ((4800 : Int) : ℚ))) = 4800
    rw [show ((100 : Int) : ℚ) = (100:ℚ) by norm_num,
      show ((4800 : Int) : ℚ) = (4800:ℚ) by norm_num, c100, c4800,
      show (100:ℚ) / 100 = (1:ℚ) by norm_num, c1v, one_mul, c4800]
    exact pyInt_eval_nonneg _ 4800 1 4800 (by norm_num) (by norm_num) (by decide)
  · intro m
    simp [percentage_to_rpm, pyInt, roundB64_zero]
  · show pyInt (roundB64 (roundB64 (((2400 : Int) : ℚ) / ((4800 : Int) : ℚ))
      * 100)) = 50
    rw [show ((2400 : Int) : ℚ) / ((4800 : Int) : ℚ) = (1:ℚ)/2 by norm_num,
      chalf, show (1:ℚ)/2 * 100 = (50:ℚ) by norm_num, c50]
    exact pyInt_eval_nonneg _ 50 1 50 (by norm_num) (by norm_num) (by decide)

/-- Witness for C9 amended at pct=100, max=4800. -/
theorem percentage_rpm_amended_witness :
    percentage_to_rpm 4800 100
      = ⌊roundB64 (roundB64 (roundB64 ((100 : Int) : ℚ) / 100)
          * roundB64 ((4800 : Int) : ℚ))⌋ :=
  percentage_rpm_amended.1 100 4800 (by decide) (by decide)

/-! ## Fault monitor (fault_service.py; table from core/config.py lines 125-149) -/

def FAULT_NAMES : List (Nat × String) := [
  (0x0001, "FOC DURATION"),
  (0x0002, "OVER VOLTAGE"),
  (0x0004, "UNDER VOLTAGE"),
  (0x0008, "OVER TEMPERATURE"),
  (0x0010, "START UP_FAILURE"),
  (0x0020, "SPEED FEEDBACK"),
  (0x0040, "OVER CURRENT"),
  (0x0080, "SOFTWARE ERROR"),
  (0x0400, "DRIVER PROTECTION")]

def STALL_FAULTS : Nat := 0x0400 ||| 0x0008 ||| 0x0010

def CLEARABLE_FAULTS : Nat :=
  0x0001 ||| 0x0002 ||| 0x0004 ||| 0x0020 ||| 0x0040 ||| 0x0080

/-- The mutable fields of `FaultMonitor` that `update_faults` touches
(`_fault_display_index` is never read or written by it). -/
structure FaultMonitorState where
  current_faults : Nat
  active_fault_list : List String
  system_stalled : Bool
deriving DecidableEq

/-- `FaultMonitor.__init__` field values. -/
def initFaultMonitor : FaultMonitorState := ⟨0x0000, [], false⟩

/-- `FaultMonitor.update_faults` (fault_service.py lines 27-66).  Returns
the boolean result, the new state, and the list of `on_fault_changed`
callback invocations (argument pairs) made during the call. -/
def update_faults (st : FaultMonitorState) (fault_flags : Nat) :
    Bool × FaultMonitorState × List (Option (List String) × String) :=
  if fault_flags = st.current_faults then (false, st, [])
  else if fault_flags = 0 then
    (true, ⟨fault_flags, [], false⟩, [(none, "normal")])
  else
    let active := FAULT_NAMES.foldl
      (fun acc p => if fault_flags &&& p.1 ≠ 0 then acc ++ [p.2] else acc) []
    (true, ⟨fault_flags, active, fault_flags &&& STALL_FAULTS != 0⟩,
      [(some active, "active")])

/-- `FaultMonitor.has_clearable_faults` (fault_service.py lines 109-111). -/
def has_clearable_faults (st : FaultMonitorState) : Bool :=
  st.current_faults &&& CLEARABLE_FAULTS != 0

/-- The decode loop of `update_faults` appends, in table order, exactly the
names whose bits are set. -/
theorem foldl_names_eq_filter (flags : Nat) :
    ∀ (l : List (Nat × String)) (acc : List String),
      l.foldl (fun acc p => if flags &&& p.1 ≠ 0 then acc ++ [p.2] else acc) acc
        = acc ++ (l.filter (fun p => decide (flags &&& p.1 ≠ 0))).map Prod.snd := by
  intro l
  induction l with
  | nil => intro acc; simp
  | cons p rest ih =>
    intro acc
    simp only [List.foldl_cons, List.filter_cons]
    by_cases h : flags &&& p.1 ≠ 0
    · rw [if_pos h, ih,
        if_pos (show decide (flags &&& p.1 ≠ 0) = true by simpa using h)]
      simp
    · rw [if_neg h, ih,
        if_neg (show ¬ decide (flags &&& p.1 ≠ 0) = true by simpa using h)]

/-- C5: the classifier surfaces, in table order, exactly the names of the
set bits present in the fault table; `system_stalled` and clearable follow
the fixed masks; and the three concrete register examples decode as the
spec states (with the code's upper-case spellings of the names). -/
theorem fault_classifier_correct :
    (∀ flags : Nat,
      (update_faults initFaultMonitor flags).2.1.active_fault_list
          = (FAULT_NAMES.filter (fun p => decide (flags &&& p.1 ≠ 0))).map Prod.snd ∧
      (update_faults initFaultMonitor flags).2.1.system_stalled
          = (flags &&& STALL_FAULTS != 0) ∧
      has_clearable_faults (update_faults initFaultMonitor flags).2.1
          = (flags &&& CLEARABLE_FAULTS != 0)) ∧
    (update_faults initFaultMonitor 0x0000).2.1.active_fault_list = [] ∧
    (update_faults initFaultMonitor 0x0000).2.1.system_stalled = false ∧
    (update_faults initFaultMonitor 0x0408).2.1.active_fault_list
        = ["OVER TEMPERATURE", "DRIVER PROTECTION"] ∧
    (update_faults initFaultMonitor 0x0408).2.1.system_stalled = true ∧
    has_clearable_faults (update_faults initFaultMonitor 0x0408).2.1 = false ∧
    (update_faults initFaultMonitor 0x0041).2.1.active_fault_list
        = ["FOC DURATION", "OVER CURRENT"] ∧
    (update_faults initFaultMonitor 0x0041).2.1.system_stalled = false ∧
    has_clearable_faults (update_faults initFaultMonitor 0x0041).2.1 = true := by
  refine ⟨?_, by decide, by decide, by decide, by decide, by decide,
    by decide, by decide, by decide⟩
  intro flags
  by_cases h0 : flags = 0
  · subst h0
    exact ⟨by decide, by decide, by decide⟩
  · have hcur : ¬ flags = initFaultMonitor.current_faults := by
      simpa [initFaultMonitor] using h0
    refine ⟨?_, ?_, ?_⟩
    · simp only [update_faults, if_neg hcur, if_neg h0]
      simpa using foldl_names_eq_filter flags FAULT_NAMES []
    · simp only [update_faults, if_neg hcur, if_neg h0]
    · simp only [update_faults, has_clearable_faults, if_neg hcur, if_neg h0]

/-- C10: calling `update_faults` with the currently stored register value
returns `False`, leaves the whole monitor state unchanged and never
invokes the `on_fault_changed` callback. -/
theorem update_faults_noop_on_equal (st : FaultMonitorState) :
    update_faults st st.current_faults = (false, st, []) := by
  unfold update_faults
  rw [if_pos rfl]

/-! ## Link transport: header resynchronization (uart_manager.py lines 271-287) -/

/-- The sliding-window loop of `_read_header_sync`: while the 4-byte
window fails CRC validation, shift in the next available byte and drop
the oldest (`window.pop(0); window.append(nxt)`).  The remaining byte
stream models the bytes the serial port will deliver before the timeout;
exhausting it models the timeout (return `b''`).  Returns the result and
the unconsumed remainder of the stream. -/
def read_header_sync_loop : List Nat → List Nat → Option (List Nat) × List Nat
  | window, [] =>
    if check_header_crc (leWord window) then (some window, []) else (none, [])
  | window, b :: rest =>
    if check_header_crc (leWord window) then (some window, b :: rest)
    else read_header_sync_loop (window.drop 1 ++ [b]) rest

/-- `_read_header_sync` (uart_manager.py lines 271-287): read 4 bytes (if
fewer arrive, give up), then slide a 4-byte window until it validates. -/
def read_header_sync (stream : List Nat) : Option (List Nat) × List Nat :=
  if stream.length < 4 then (none, [])
  else read_header_sync_loop (stream.take 4) (stream.drop 4)

/-- Counterexample to C7 as stated: garbage `[0]` followed by the valid
header `[0,0,0,0x18]` makes the very first window `[0,0,0,0]` validate
(it is itself a CRC-valid word), so the function returns that window, not
the intended header, and leaves a byte unconsumed. -/
theorem header_sync_counterexample :
    check_header_crc (leWord [0, 0, 0, 0x18]) = true ∧
    read_header_sync ([0] ++ [0, 0, 0, 0x18]) = (some [0, 0, 0, 0], [0x18]) ∧
    (some [(0 : Nat), 0, 0, 0], [(0x18 : Nat)])
      ≠ (some [(0 : Nat), 0, 0, 0x18], ([] : List Nat)) := by
  refine ⟨by decide, ?_, by decide⟩
  decide

/-- If every window strictly before the final one fails validation and the
final window validates, the loop consumes everything and returns the final
window. -/
theorem read_header_sync_loop_consume_all :
    ∀ (rest window : List Nat), window.length = 4 →
      (∀ i < rest.length,
        check_header_crc (leWord (((window ++ rest).drop i).take 4)) = false) →
      check_header_crc (leWord (((window ++ rest).drop rest.length).take 4)) = true →
      read_header_sync_loop window rest
        = (some (((window ++ rest).drop rest.length).take 4), []) := by
  intro rest
  induction rest with
  | nil =>
    intro window hlen hbad hgood
    have hw : ((window ++ ([] : List Nat)).drop (List.length ([] : List Nat))).take 4
        = window := by
      simp only [List.append_nil, List.length_nil, List.drop_zero]
      exact List.take_of_length_le (by omega)
    rw [hw] at hgood ⊢
    simp only [read_header_sync_loop]
    rw [if_pos hgood]
  | cons b rest2 ih =>
    intro window hlen hbad hgood
    have hlen2 : (window.drop 1 ++ [b]).length = 4 := by
      simp only [List.length_append, List.length_drop, List.length_cons,
        List.length_nil]
      omega
    have hshift : window.drop 1 ++ [b] ++ rest2 = (window ++ b :: rest2).drop 1 := by
      rw [List.append_assoc, List.singleton_append,
        List.drop_append_of_le_length (by omega)]
    have hslice : ∀ i : Nat,
        ((window.drop 1 ++ [b] ++ rest2).drop i).take 4
          = ((window ++ b :: rest2).drop (1 + i)).take 4 := by
      intro i
      rw [hshift, List.drop_drop]
    have hbad0 : check_header_crc (leWord window) = false := by
      have h := hbad 0 (by simp)
      rw [List.drop_zero, List.take_append_of_le_length (by omega),
        List.take_of_length_le (by omega)] at h
      exact h
    simp only [read_header_sync_loop]
    rw [if_neg (show ¬ check_header_crc (leWord window) = true by
      rw [hbad0]; simp)]
    have hb2 : ∀ i < rest2.length,
        check_header_crc
          (leWord (((window.drop 1 ++ [b] ++ rest2).drop i).take 4)) = false := by
      intro i hi
      rw [hslice i]
      exact hbad (1 + i) (by simp only [List.length_cons]; omega)
    have hg2 : check_header_crc
        (leWord (((window.drop 1 ++ [b] ++ rest2).drop rest2.length).take 4))
          = true := by
      rw [hslice rest2.length]
      have hc : 1 + rest2.length = (b :: rest2).length := by
        simp only [List.length_cons]; omega
      rw [hc]
      exact hgood
    rw [ih (window.drop 1 ++ [b]) hlen2 hb2 hg2, hslice rest2.length]
    have hc : 1 + rest2.length = (b :: rest2).length := by
      simp only [List.length_cons]; omega
    rw [hc]

/-- C7 amended: if no 4-byte window that starts inside the garbage
validates, `read_header_sync` on garbage followed by one CRC-valid 4-byte
header returns exactly that header and consumes the whole stream. -/
theorem header_sync_garbage_amended (g H : List Nat) (hH : H.length = 4)
    (hvalid : check_header_crc (leWord H) = true)
    (hgarbage : ∀ i < g.length,
      check_header_crc (leWord (((g ++ H).drop i).take 4)) = false) :
    read_header_sync (g ++ H) = (some H, []) := by
  have hlen : (g ++ H).length = g.length + 4 := by
    simp [List.length_append, hH]
  unfold read_header_sync
  rw [if_neg (by omega)]
  have hsplit : (g ++ H).take 4 ++ (g ++ H).drop 4 = g ++ H :=
    List.take_append_drop 4 (g ++ H)
  have htlen : ((g ++ H).take 4).length = 4 := by
    simp only [List.length_take]
    omega
  have hdlen : ((g ++ H).drop 4).length = g.length := by
    simp only [List.length_drop]
    omega
  have hslices : ∀ i : Nat,
      (((g ++ H).take 4 ++ (g ++ H).drop 4).drop i).take 4
        = ((g ++ H).drop i).take 4 := by
    intro i
    rw [hsplit]
  have hend : ((g ++ H).drop g.length).take 4 = H := by
    rw [List.drop_left, List.take_of_length_le (by omega)]
  have hb : ∀ i < ((g ++ H).drop 4).length,
      check_header_crc
        (leWord ((((g ++ H).take 4 ++ (g ++ H).drop 4).drop i).take 4)) = false := by
    intro i hi
    rw [hslices i]
    exact hgarbage i (by omega)
  have hg : check_header_crc
      (leWord ((((g ++ H).take 4 ++ (g ++ H).drop 4).drop
        ((g ++ H).drop 4).length).take 4)) = true := by
    rw [hslices, hdlen, hend]
    exact hvalid
  rw [read_header_sync_loop_consume_all ((g ++ H).drop 4) ((g ++ H).take 4)
    htlen hb hg, hslices, hdlen, hend]

/-- Witness for C7 amended: one garbage byte `0x01` (whose window fails
validation) before the valid header `[0,0,0,0x18]`. -/
theorem header_sync_garbage_amended_witness :
    read_header_sync ([1] ++ [0, 0, 0, 0x18]) = (some [0, 0, 0, 0x18], []) :=
  header_sync_garbage_amended [1] [0, 0, 0, 0x18] (by decide) (by decide)
    (by decide)

/-! ## Capabilities and handshake (uart_manager.py lines 183-208, 310-346) -/

/-- ASPEP capabilities (`@dataclass Capabilities`). -/
structure Capabilities where
  version : Nat
  data_crc : Nat
  rx_max : Nat
  txs_max : Nat
  txa_max : Nat
deriving DecidableEq

/-- `Capabilities()` default field values. -/
def defaultCapabilities : Capabilities :=
  ⟨0, 0, 0x1C, 0x07, 0x01⟩

/-- `Capabilities.from_lower28` (uart_manager.py lines 200-208). -/
def Capabilities.from_lower28 (l28 : Nat) : Capabilities :=
  ⟨(l28 >>> 4) &&& 0x7, (l28 >>> 7) &&& 0x1, (l28 >>> 8) &&& 0x3F,
   (l28 >>> 14) &&& 0x7F, (l28 >>> 21) &&& 0x7F⟩

/-- `handshake` (uart_manager.py lines 310-346), with the serial reads made
explicit: `beaconReply` is what `_read_exact(4, 0.4)` returns after the
local beacon is sent (empty on timeout), `pongReply` what
`_read_exact(4, 0.5)` returns after the PING.  The echo read result is
discarded by the code.  Returns the boolean result and the (possibly
negotiated) `ctrl_caps`. -/
def handshake (connected : Bool) (ctrl : Capabilities)
    (beaconReply pongReply : List Nat) : Bool × Capabilities :=
  if connected then (true, ctrl)
  else if beaconReply = [] then (false, ctrl)
  else
    let w := leWord beaconReply
    let perf := if check_header_crc w ∧ (w &&& 0xF) = TYPE_BEACON then
        Capabilities.from_lower28 (w &&& 0x0FFFFFFF)
      else ctrl
    let ctrl2 : Capabilities :=
      { ctrl with
        rx_max := min ctrl.rx_max perf.rx_max,
        txs_max := min ctrl.txs_max perf.txs_max,
        txa_max := min ctrl.txa_max perf.txa_max }
    match pongReply with
    | [] => (false, ctrl2)
    | b :: _ => if (b &&& 0x0F) = TYPE_PING then (true, ctrl2) else (false, ctrl2)

/-- Counterexample to C2 as stated: when the beacon-echo read returns no
bytes at all, the handshake fails at the beacon step even though the
subsequent PING exchange would succeed; with a non-empty but invalid
reply it proceeds and succeeds. -/
theorem handshake_beacon_counterexample :
    handshake false defaultCapabilities [] [0x06, 0, 0, 0]
      = (false, defaultCapabilities) ∧
    handshake false defaultCapabilities [1, 0, 0, 0] [0x06, 0, 0, 0]
      = (true, defaultCapabilities) := by
  constructor <;> decide

/-- C2 amended: if the 4-byte read after the local beacon yields at least
one byte that does not form a valid BEACON, the handshake assumes the peer
capabilities equal the local ones (negotiation is then the identity) and
proceeds; only the PING exchange decides success.  If the read yields no
bytes at all, the handshake instead fails at the beacon step. -/
theorem handshake_missing_beacon_amended (c : Capabilities)
    (beaconReply pongReply : List Nat) (hne : beaconReply ≠ [])
    (hnb : check_header_crc (leWord beaconReply) = false ∨
      (leWord beaconReply) &&& 0xF ≠ TYPE_BEACON) :
    handshake false c beaconReply pongReply
      = ((match pongReply with
          | [] => false
          | b :: _ => decide ((b &&& 0x0F) = TYPE_PING)), c) := by
  unfold handshake
  rw [if_neg (by simp), if_neg hne]
  dsimp only
  have hperf : ¬ (check_header_crc (leWord beaconReply) = true ∧
      (leWord beaconReply) &&& 0xF = TYPE_BEACON) := by
    rcases hnb with h | h
    · intro hc; rw [hc.1] at h; cases h
    · intro hc; exact h hc.2
  rw [if_neg hperf]
  simp only [Nat.min_self]
  rcases pongReply with _ | ⟨b, rest⟩
  · rfl
  · by_cases hping : (b &&& 0x0F) = TYPE_PING <;> simp [hping]

/-- Witness for C2 amended: a one-byte invalid beacon reply `[2]` and a
PING-typed pong. -/
theorem handshake_missing_beacon_amended_witness :
    handshake false defaultCapabilities [2, 0, 0, 0] [6]
      = ((match [6] with
          | [] => false
          | b :: _ => decide ((b &&& 0x0F) = TYPE_PING)), defaultCapabilities) :=
  handshake_missing_beacon_amended defaultCapabilities [2, 0, 0, 0] [6]
    (by decide) (Or.inl (by decide))

/-! ## Command exchange (uart_manager.py lines 349-459) -/

/-- The result of one `_read_packet` call: the type nibble and payload. -/
structure Packet where
  ptype : Nat
  payload : List Nat
deriving DecidableEq

/-- The ACK-then-poll loop of `_send_data_command` (uart_manager.py lines
429-456).  `reads` is the sequence of `_read_packet(timeout=0.5)` results
the wire will deliver before `data_timeout` expires (`none` is a read that
timed out and is skipped by `continue`); exhausting it models reaching the
deadline.  Returns the command result and the new `last_data_payload`
(`none` = field left unchanged). -/
def poll_for_data (allow_ack_only : Bool) :
    List (Option Packet) → Bool × Option (List Nat)
  | [] => if allow_ack_only then (true, some []) else (false, none)
  | none :: rest => poll_for_data allow_ack_only rest
  | some p :: rest =>
    if p.ptype = TYPE_SILENT then poll_for_data allow_ack_only rest
    else if p.ptype = TYPE_ERROR then (false, none)
    else if p.ptype = TYPE_DATA then (true, some p.payload)
    else if p.ptype = TYPE_ACK ∧ p.payload ≠ [] then (true, some p.payload)
    else if p.ptype = TYPE_NACK then (false, none)
    else poll_for_data allow_ack_only rest

/-- Response handling of `_send_data_command` after the (at most one
SILENT-skip) first packet is in hand (uart_manager.py lines 406-459). -/
def send_response_handling (p : Packet) (rest : List (Option Packet))
    (expect_data allow_ack_only : Bool) : Bool × Option (List Nat) :=
  if p.ptype = TYPE_ERROR then (false, none)
  else if p.ptype = TYPE_NACK then (false, none)
  else if p.ptype = TYPE_DATA then (true, some p.payload)
  else if p.ptype = TYPE_ACK then
    if p.payload ≠ [] then (true, some p.payload)
    else if expect_data = false then (true, none)
    else poll_for_data allow_ack_only rest
  else (false, none)

/-- `_send_data_command` (uart_manager.py lines 380-459) with the packet
reads made explicit.  The first list entry is the first
`_read_packet(timeout=0.8)` result; exactly one leading SILENT triggers one
further read; everything after feeds the ACK-then-poll phase. -/
def send_data_command (expect_data allow_ack_only : Bool)
    (reads : List (Option Packet)) : Bool × Option (List Nat) :=
  match reads with
  | [] => (false, none)
  | first :: rest =>
    match first with
    | none => (false, none)
    | some f =>
      if f.ptype = TYPE_SILENT then
        match rest with
        | [] => (false, none)
        | second :: rest2 =>
          match second with
          | none => (false, none)
          | some p => send_response_handling p rest2 expect_data allow_ack_only
      else send_response_handling f rest expect_data allow_ack_only

/-- A packet that terminates the ACK-then-poll loop. -/
def pollSignificant (p : Packet) : Bool :=
  p.ptype == TYPE_ERROR || p.ptype == TYPE_NACK || p.ptype == TYPE_DATA ||
    (p.ptype == TYPE_ACK && !p.payload.isEmpty)

/-- Declarative description of the ACK-then-poll phase: the first
significant delivered packet decides the outcome; with none before the
deadline, `allow_ack_only` decides. -/
def pollOutcome (allow_ack_only : Bool) (reads : List (Option Packet)) :
    Bool × Option (List Nat) :=
  match (reads.filterMap id).find? pollSignificant with
  | some p =>
    if p.ptype = TYPE_ERROR ∨ p.ptype = TYPE_NACK then (false, none)
    else (true, some p.payload)
  | none => if allow_ack_only then (true, some []) else (false, none)

/-- The poll loop computes exactly the declarative outcome. -/
theorem poll_for_data_eq_pollOutcome (a : Bool) :
    ∀ reads : List (Option Packet), poll_for_data a reads = pollOutcome a reads := by
  intro reads
  induction reads with
  | nil => rfl
  | cons r rest ih =>
    cases r with
    | none =>
      rw [show poll_for_data a (none :: rest) = poll_for_data a rest from rfl, ih]
      unfold pollOutcome
      rw [List.filterMap_cons_none (by rfl)]
    | some p =>
      have hfm : ((some p :: rest).filterMap id) = p :: rest.filterMap id :=
        List.filterMap_cons_some (by rfl)
      by_cases h1 : p.ptype = TYPE_SILENT
      · have hsig : ¬ (pollSignificant p = true) := by
          simp [pollSignificant, h1, TYPE_SILENT, TYPE_ERROR, TYPE_NACK,
            TYPE_DATA, TYPE_ACK]
        simp only [poll_for_data, if_pos h1]
        unfold pollOutcome
        rw [hfm, List.find?_cons_of_neg _ hsig]
        exact ih
      · by_cases h7 : p.ptype = TYPE_ERROR
        · have hsig : pollSignificant p = true := by simp [pollSignificant, h7]
          simp only [poll_for_data, if_neg h1, if_pos h7]
          unfold pollOutcome
          rw [hfm, List.find?_cons_of_pos _ hsig]
          dsimp only
          rw [if_pos (Or.inl h7)]
        · by_cases h9 : p.ptype = TYPE_DATA
          · have hsig : pollSignificant p = true := by simp [pollSignificant, h9]
            simp only [poll_for_data, if_neg h1, if_neg h7, if_pos h9]
            unfold pollOutcome
            rw [hfm, List.find?_cons_of_pos _ hsig]
            dsimp only
            rw [if_neg (by simp [h9, TYPE_DATA, TYPE_ERROR, TYPE_NACK])]
          · by_cases hA : p.ptype = TYPE_ACK ∧ p.payload ≠ []
            · have hsig : pollSignificant p = true := by
                simp [pollSignificant, hA.1, hA.2]
              simp only [poll_for_data, if_neg h1, if_neg h7, if_neg h9, if_pos hA]
              unfold pollOutcome
              rw [hfm, List.find?_cons_of_pos _ hsig]
              dsimp only
              rw [if_neg (by simp [hA.1, TYPE_ACK, TYPE_ERROR, TYPE_NACK])]
            · by_cases hF : p.ptype = TYPE_NACK
              · have hsig : pollSignificant p = true := by simp [pollSignificant, hF]
                simp only [poll_for_data, if_neg h1, if_neg h7, if_neg h9, if_neg hA,
                  if_pos hF]
                unfold pollOutcome
                rw [hfm, List.find?_cons_of_pos _ hsig]
                dsimp only
                rw [if_pos (Or.inr hF)]
              · have hsig : ¬ (pollSignificant p = true) := by
                  by_cases hAck : p.ptype = TYPE_ACK
                  · have hpay : p.payload = [] := by
                      by_cases hp : p.payload = []
                      · exact hp
                      · exact absurd ⟨hAck, hp⟩ hA
                    simp [pollSignificant, h7, h9, hF, hpay]
                  · simp [pollSignificant, h7, h9, hF, hAck]
                simp only [poll_for_data, if_neg h1, if_neg h7, if_neg h9, if_neg hA,
                  if_neg hF]
                unfold pollOutcome
                rw [hfm, List.find?_cons_of_neg _ hsig]
                exact ih

/-- Counterexample to C6 as stated: the code skips only ONE leading SILENT
filler.  With two SILENT packets before the empty ACK, the first
non-SILENT response is still an empty ACK while data is expected, but the
command fails with "unexpected type" instead of polling and accepting the
following DATA packet. -/
theorem send_command_ack_poll_counterexample :
    send_data_command true true
      [some ⟨TYPE_SILENT, []⟩, some ⟨TYPE_SILENT, []⟩, some ⟨TYPE_ACK, []⟩,
        some ⟨TYPE_DATA, [7]⟩] = (false, none) ∧
    ((false, none) : Bool × Option (List Nat)) ≠ (true, some [7]) := by
  constructor
  · rfl
  · decide

/-- C6 amended: after at most ONE leading SILENT filler, an empty ACK with
data expected starts the poll phase, which succeeds on the first DATA or
ACK-with-payload, fails on ERROR or NACK, and on exhausting the reads
(the dataTimeout deadline) succeeds empty exactly when allowAckOnly is
set; an ERROR or NACK as the first (or one-SILENT-delayed) response always
fails the command. -/
theorem send_command_ack_poll_amended :
    (∀ (a : Bool) (rest : List (Option Packet)),
      send_data_command true a (some ⟨TYPE_ACK, []⟩ :: rest) = pollOutcome a rest) ∧
    (∀ (a : Bool) (rest : List (Option Packet)),
      send_data_command true a
        (some ⟨TYPE_SILENT, []⟩ :: some ⟨TYPE_ACK, []⟩ :: rest)
          = pollOutcome a rest) ∧
    (∀ (e a : Bool) (p : Packet) (rest : List (Option Packet)),
      p.ptype = TYPE_ERROR ∨ p.ptype = TYPE_NACK →
        send_data_command e a (some p :: rest) = (false, none) ∧
        send_data_command e a (some ⟨TYPE_SILENT, []⟩ :: some p :: rest)
          = (false, none)) := by
  refine ⟨?_, ?_, ?_⟩
  · intro a rest
    exact poll_for_data_eq_pollOutcome a rest
  · intro a rest
    exact poll_for_data_eq_pollOutcome a rest
  · intro e a p rest h
    rcases h with h | h <;>
      refine ⟨?_, ?_⟩ <;>
        simp [send_data_command, send_response_handling, h, TYPE_SILENT,
          TYPE_ERROR, TYPE_NACK]

/-- Witness for C6 amended: an empty ACK followed by one DATA packet, and
a first-response NACK. -/
theorem send_command_ack_poll_amended_witness :
    send_data_command true false [some ⟨TYPE_ACK, []⟩, some ⟨TYPE_DATA, [5]⟩]
        = pollOutcome false [some ⟨TYPE_DATA, [5]⟩] ∧
    send_data_command false true [some ⟨TYPE_NACK, []⟩] = (false, none) :=
  ⟨send_command_ack_poll_amended.1 false [some ⟨TYPE_DATA, [5]⟩],
    (send_command_ack_poll_amended.2.2 false true ⟨TYPE_NACK, []⟩ []
      (Or.inr rfl)).1⟩

/-! ## Speed ramp planner (uart_manager.py lines 540-685) -/

/-- One `_send_data_command` invocation as seen by the speed-command code:
consume the next prepared read-sequence from the environment.  The payload
bytes sent do not influence the client-side control flow, so the
environment abstracts the device's reaction to each successive attempt.
An exhausted environment models a link delivering nothing (failure). -/
def run_send (env : List (List (Option Packet)))
    (expect_data allow_ack_only : Bool) :
    Bool × List (List (Option Packet)) :=
  match env with
  | [] => (false, [])
  | r :: rest => ((send_data_command expect_data allow_ack_only r).1, rest)

/-- `set_speed_ramp_raw` (uart_manager.py lines 579-629): after the
handshake check, try the three payload formats in order, accepting the
first that succeeds.  Does not touch `_last_speed_ref`. -/
def set_speed_ramp_raw (hs : Bool) (target_rpm ramp_duration_ms : Int)
    (env : List (List (Option Packet))) :
    Bool × List (List (Option Packet)) :=
  if hs = false then (false, env)
  else
    let r1 := run_send env false true
    if r1.1 then (true, r1.2)
    else
      let r2 := run_send r1.2 false true
      if r2.1 then (true, r2.2)
      else run_send r2.2 false true

/-- `_set_speed_instant` (uart_manager.py lines 658-685): try three
payload formats for an immediate register write. -/
def set_speed_instant (rpm : Int) (env : List (List (Option Packet))) :
    Bool × List (List (Option Packet)) :=
  let r1 := run_send env false true
  if r1.1 then (true, r1.2)
  else
    let r2 := run_send r1.2 false true
    if r2.1 then (true, r2.2)
    else run_send r2.2 false true

/-- The `for step in range(steps)` loop of `_set_speed_stepwise`:
`remaining` counts steps left, `stepIdx` is `step + 1`. -/
def stepwise_loop (current direction : Int) (step_size : Nat) :
    Nat → Nat → List (List (Option Packet)) →
      Bool × List (List (Option Packet))
  | 0, _, env => (true, env)
  | remaining + 1, stepIdx, env =>
    let r := set_speed_instant
      (current + direction * (step_size : Int) * (stepIdx : Int)) env
    if r.1 then
      stepwise_loop current direction step_size remaining (stepIdx + 1) r.2
    else (false, r.2)

/-- `_set_speed_stepwise` (uart_manager.py lines 631-655).  Does not touch
`_last_speed_ref`. -/
def set_speed_stepwise (last : Option Int) (target_rpm : Int)
    (env : List (List (Option Packet))) :
    Bool × List (List (Option Packet)) :=
  let current := last.getD 0
  if (target_rpm - current).natAbs ≤ 500 then set_speed_instant target_rpm env
  else
    let steps := (target_rpm - current).natAbs / 500
    let direction : Int := if current < target_rpm then 1 else -1
    let r := stepwise_loop current direction 500 steps 1 env
    if r.1 then set_speed_instant target_rpm r.2 else (false, r.2)

/-- The client state consulted and mutated by the speed commands:
`_last_speed_ref` (None until a speed command succeeds) and
`_acceleration_rpm_s`. -/
structure ClientState where
  lastSpeedRef : Option Int
  accelerationRpmS : ℚ
deriving DecidableEq

/-- The ramp-duration computation of `set_speed_auto_ramp` (lines
556-560): `int(speed_change / acc_rpm_s * 1000)` floored at 500 ms.  The
int `speed_change` is converted to a double and divided by the double
field `_acceleration_rpm_s`; the product with the exact double 1000
rounds again; each step rounds to binary64. -/
def auto_ramp_duration (acceleration_rpm_s : ℚ) (speed_change : Nat) : Int :=
  max (pyInt (roundB64 (roundB64 (roundB64 (speed_change : ℚ)
    / acceleration_rpm_s) * 1000))) 500

/-- `set_speed_auto_ramp` (uart_manager.py lines 540-576): handshake
check; `current = self._last_speed_ref or 0`; zero delta is a success
no-op; otherwise try the raw ramp register write, then the stepwise
fallback, updating `_last_speed_ref` only after a success. -/
def set_speed_auto_ramp (hs : Bool) (st : ClientState) (target_rpm : Int)
    (env : List (List (Option Packet))) : Bool × ClientState :=
  if hs = false then (false, st)
  else
    let current := st.lastSpeedRef.getD 0
    let speed_change := (target_rpm - current).natAbs
    if speed_change = 0 then (true, st)
    else
      let r := set_speed_ramp_raw true target_rpm
        (auto_ramp_duration st.accelerationRpmS speed_change) env
      if r.1 then (true, { st with lastSpeedRef := some target_rpm })
      else
        let r2 := set_speed_stepwise st.lastSpeedRef target_rpm r.2
        if r2.1 then (true, { st with lastSpeedRef := some target_rpm })
        else (false, st)

/-- Counterexample to C3 as stated: starting with `_last_speed_ref = None`
(never set) and target 0, the command succeeds (zero delta) but the field
is NOT updated to the target RPM - it stays None. -/
theorem auto_ramp_lastspeed_counterexample :
    set_speed_auto_ramp true ⟨none, 8000⟩ 0 [] = (true, ⟨none, 8000⟩) ∧
    (⟨none, 8000⟩ : ClientState).lastSpeedRef ≠ some 0 := by
  constructor
  · rfl
  · simp

/-- C3 amended: on failure (any cause, including NACK replies inside the
raw/stepwise attempts) the last-commanded-speed field keeps its previous
value; on success it equals the target except in the zero-delta no-op,
which leaves the field unchanged (it already equals the target whenever it
was ever set). -/
theorem auto_ramp_lastspeed_amended (hs : Bool) (st : ClientState)
    (target : Int) (env : List (List (Option Packet))) :
    ((set_speed_auto_ramp hs st target env).1 = false →
      (set_speed_auto_ramp hs st target env).2 = st) ∧
    ((set_speed_auto_ramp hs st target env).1 = true →
      ((set_speed_auto_ramp hs st target env).2.lastSpeedRef = some target ∨
        ((set_speed_auto_ramp hs st target env).2 = st ∧
          st.lastSpeedRef.getD 0 = target))) := by
  unfold set_speed_auto_ramp
  dsimp only
  split_ifs with h1 h2 h3 h4
  · simp
  · refine ⟨by simp, fun _ => Or.inr ⟨rfl, ?_⟩⟩
    have h := Int.natAbs_eq_zero.mp h2
    omega
  · exact ⟨by simp, fun _ => Or.inl rfl⟩
  · exact ⟨by simp, fun _ => Or.inl rfl⟩
  · exact ⟨fun _ => rfl, by simp⟩

/-- Witness for C3 amended at a successful zero-delta invocation. -/
theorem auto_ramp_lastspeed_amended_witness :
    (set_speed_auto_ramp true ⟨some 5, 8000⟩ 5 []).2.lastSpeedRef = some 5 ∨
      ((set_speed_auto_ramp true ⟨some 5, 8000⟩ 5 []).2 = ⟨some 5, 8000⟩ ∧
        (⟨some 5, (8000 : ℚ)⟩ : ClientState).lastSpeedRef.getD 0 = 5) :=
  (auto_ramp_lastspeed_amended true ⟨some 5, 8000⟩ 5 []).2 (by rfl)

/-- Counterexample to C4 as stated: with current 0, target 1001 and the
CLI's default acceleration 1000.0 RPM/s, the binary64 evaluation of
`delta / accel * 1000` rounds to just below 1001, so the code commands
1000 ms while the claim's formula `max(500, floor(delta/accel*1000))`
gives 1001 ms. -/
theorem auto_ramp_duration_counterexample :
    auto_ramp_duration 1000 ((1001 - 0 : Int).natAbs) = 1000 ∧
    max 500 ⌊(((1001 - 0 : Int).natAbs : ℚ) / 1000 * 1000)⌋ = 1001 ∧
    (1000 : Int) ≠ 1001 := by
  have c1001 : roundB64 (1001:ℚ) = 1001 :=
    roundB64_eq_self 1001 9 8804889115230208 (by norm_num) (by norm_num)
      (by norm_num) (by norm_num)
  have cdiv : roundB64 ((1001:ℚ)/1000) = (4508103226997866:ℚ)/4503599627370496 := by
    rw [roundB64_pos_eval ((1001:ℚ)/1000) 0 4508103226997866 (by norm_num)
      (by norm_num) (by norm_num)
      (rne_eval_down _ 4508103226997866496 1000 4508103226997866 (by norm_num)
        (by decide) (by norm_num))]
    norm_num
  have cmul : roundB64 ((4508103226997866000:ℚ)/4503599627370496)
      = (8804889115230207:ℚ)/8796093022208 := by
    rw [roundB64_pos_eval _ 9 8804889115230207 (by norm_num) (by norm_num)
      (by norm_num)
      (rne_eval_down _ 4508103226997866000 512 8804889115230207 (by norm_num)
        (by decide) (by norm_num))]
    norm_num
  refine ⟨?_, ?_, by decide⟩
  · have hd : (1001 - 0 : Int).natAbs = 1001 := by decide
    unfold auto_ramp_duration
    rw [hd, show (((1001:ℕ)) : ℚ) = (1001:ℚ) by norm_num, c1001,
      show (1001:ℚ) / 1000 = (1001:ℚ)/1000 from rfl, cdiv,
      show (4508103226997866:ℚ)/4503599627370496 * 1000
        = (4508103226997866000:ℚ)/4503599627370496 by norm_num, cmul,
      pyInt_eval_nonneg _ 8804889115230207 8796093022208 1000 (by norm_num)
        (by norm_num) (by decide)]
    decide
  · have hd : (1001 - 0 : Int).natAbs = 1001 := by decide
    rw [hd, show (((1001:ℕ)) : ℚ) / 1000 * 1000 = ((1001:ℤ):ℚ)/((1:ℕ):ℚ) by
      push_cast; norm_num, Rat.floor_intCast_div_natCast]
    decide

/-- C4 amended: a zero-delta auto-ramp is a success no-op; otherwise the
ramp duration is `max(500, t)` milliseconds where `t` is the truncation
(equivalently the floor, the value being nonnegative) of the IEEE-binary64
evaluation of `delta / accel * 1000`, which can fall below the exact
`floor(delta/accel*1000)` by one; the claim's two examples hold:
current=1000, target=3000, accel=2000 gives 1000 ms and current=1000,
target=1010, accel=2000 gives 500 ms. -/
theorem auto_ramp_duration_formula :
    (∀ (st : ClientState) (target : Int) (env : List (List (Option Packet))),
      st.lastSpeedRef.getD 0 = target →
        set_speed_auto_ramp true st target env = (true, st)) ∧
    (∀ (speed_change : Nat) (accel : ℚ), 0 < accel →
      auto_ramp_duration accel speed_change
        = max 500 ⌊roundB64 (roundB64 (roundB64 (speed_change : ℚ) / accel)
            * 1000)⌋) ∧
    auto_ramp_duration 2000 ((3000 - 1000 : Int).natAbs) = 1000 ∧
    auto_ramp_duration 2000 ((1010 - 1000 : Int).natAbs) = 500 := by
  have c2000 : roundB64 (2000:ℚ) = 2000 :=
    roundB64_eq_self 2000 10 8796093022208000 (by norm_num) (by norm_num)
      (by norm_num) (by norm_num)
  have c1v : roundB64 (1:ℚ) = 1 :=
    roundB64_eq_self 1 0 4503599627370496 (by norm_num) (by norm_num)
      (by norm_num) (by norm_num)
  have c1000 : roundB64 (1000:ℚ) = 1000 :=
    roundB64_eq_self 1000 9 8796093022208000 (by norm_num) (by norm_num)
      (by norm_num) (by norm_num)
  have c10 : roundB64 (10:ℚ) = 10 :=
    roundB64_eq_self 10 3 5629499534213120 (by norm_num) (by norm_num)
      (by norm_num) (by norm_num)
  have cdiv200 : roundB64 ((1:ℚ)/200)
      = (5764607523034235:ℚ)/1152921504606846976 := by
    rw [roundB64_pos_eval ((1:ℚ)/200) (-8) 5764607523034235 (by norm_num)
      (by norm_num) (by norm_num)
      (by rw [rne_eval_up _ 1152921504606846976 200 5764607523034234
          (by norm_num) (by decide) (by norm_num)]; norm_num)]
    norm_num
  have cmul5 : roundB64 ((5764607523034235000:ℚ)/1152921504606846976) = 5 := by
    rw [roundB64_pos_eval _ 2 5629499534213120 (by norm_num) (by norm_num)
      (by norm_num)
      (rne_eval_down _ 5764607523034235000 1024 5629499534213120 (by norm_num)
        (by decide) (by norm_num))]
    norm_num
  refine ⟨?_, ?_, ?_, ?_⟩
  · intro st target env h
    unfold set_speed_auto_ramp
    dsimp only
    rw [h]
    simp
  · intro speed_change accel hacc
    have h1 : (0:ℚ) ≤ roundB64 (speed_change : ℚ) :=
      roundB64_nonneg _ (Nat.cast_nonneg _)
    have h2 : (0:ℚ) ≤ roundB64 (roundB64 (speed_change : ℚ) / accel) :=
      roundB64_nonneg _ (div_nonneg h1 (le_of_lt hacc))
    have h3 : (0:ℚ) ≤ roundB64 (roundB64 (roundB64 (speed_change : ℚ) / accel)
        * 1000) :=
      roundB64_nonneg _ (mul_nonneg h2 (by norm_num))
    unfold auto_ramp_duration pyInt
    rw [if_pos h3, max_comm]
  · have hd : (3000 - 1000 : Int).natAbs = 2000 := by decide
    unfold auto_ramp_duration
    rw [hd, show (((2000:ℕ)) : ℚ) = (2000:ℚ) by norm_num, c2000,
      show (2000:ℚ) / 2000 = (1:ℚ) by norm_num, c1v, one_mul, c1000,
      pyInt_eval_nonneg _ 1000 1 1000 (by norm_num) (by norm_num) (by decide)]
    decide
  · have hd : (1010 - 1000 : Int).natAbs = 10 := by decide
    unfold auto_ramp_duration
    rw [hd, show (((10:ℕ)) : ℚ) = (10:ℚ) by norm_num, c10,
      show (10:ℚ) / 2000 = (1:ℚ)/200 by norm_num, cdiv200,
      show (5764607523034235:ℚ)/1152921504606846976 * 1000
        = (5764607523034235000:ℚ)/1152921504606846976 by norm_num, cmul5,
      pyInt_eval_nonneg _ 5 1 5 (by norm_num) (by norm_num) (by decide)]
    decide

/-- Witness for C4 amended at a concrete no-op call and delta=2000,
accel=2000. -/
theorem auto_ramp_duration_formula_witness :
    set_speed_auto_ramp true ⟨some 7, 8000⟩ 7 [] = (true, ⟨some 7, 8000⟩) ∧
    auto_ramp_duration 2000 2000
      = max 500 ⌊roundB64 (roundB64 (roundB64 ((2000 : Nat) : ℚ) / 2000)
          * 1000)⌋ :=
  ⟨auto_ramp_duration_formula.1 ⟨some 7, 8000⟩ 7 [] (by rfl),
   auto_ramp_duration_formula.2.1 2000 2000 (by norm_num)⟩
